import Mathlib

/-!
Verification of the layout-planning and result-aggregation core of the
object-store benchmark (src/main.rs, src/download.rs, src/columnar.rs).

The object-storage backend, the tokio runtime and wall-clock timing are
external collaborators; the embedding models the pure data flow: location
resolution, the size-uniformity assertion, layout planning for the block
and columnar patterns, sequential first-error aggregation of the fetch
results, and the success record that is printed.  Machine integers
(`usize`) are modelled as `Nat`; the divisions in the source are Rust
integer (floor) divisions, and a division by zero or an out-of-bounds
index in Rust is a panic, modelled as an explicit `RunError` value.
-/

namespace OSBench

/-- Model of `object_store::ObjectMeta`: an opaque location identifier and
the object's size in bytes. -/
structure ObjectMeta where
  location : Nat
  size : Nat
  deriving DecidableEq

/-- One planned range-get: `(location, start..stop)` with a half-open byte
range, as produced by the planning loops of both benchmarks. -/
structure FetchTask where
  location : Nat
  start : Nat
  stop : Nat
  deriving DecidableEq

/-- The pure content of the JSON record printed on success: object count,
unit count (`num_blocks` or `num_groups`) and the total byte count used
for the throughput computation.  Elapsed time and MiB/s are wall-clock
quantities outside the embedding. -/
structure BenchRecord where
  numObjects : Nat
  unitCount : Nat
  totalBytes : Nat
  deriving DecidableEq

/-- Ways a run can fail: the two `assert!` panics, the two arithmetic
panics (`objects[0]` on an empty list, division by zero), a failed
range-get propagated by `try_collect`, and a backend error from
`inspect_location`. -/
inductive RunError where
  | panickedIndexOutOfBounds
  | panickedSizeMismatch
  | panickedDivideByZero
  | panickedObjectTooSmall
  | fetchFailure
  | resolutionError
  deriving DecidableEq

/-- Outcome of the backend `head` call in `inspect_location`. -/
inductive HeadResult where
  | found (meta : ObjectMeta)
  | notFound
  | otherError

/-- `inspect_location` (main.rs lines 77 to 90): a successful `head` yields
the single object; `NotFound` falls back to listing the location as a
prefix; any other error, or a listing error, propagates. -/
def inspect_location (head : HeadResult) (listing : Except Unit (List ObjectMeta)) :
    Except RunError (List ObjectMeta) :=
  match head with
  | HeadResult.found meta => Except.ok [meta]
  | HeadResult.notFound =>
    match listing with
    | Except.ok objs => Except.ok objs
    | Except.error _ => Except.error RunError.resolutionError
  | HeadResult.otherError => Except.error RunError.resolutionError

/-- download.rs line 28: `block_size.unwrap_or(object_size / parallel_downloads)`
uses Rust floor division for the default. -/
def defaultBlockSize (objectSize parallelDownloads : Nat) : Nat :=
  objectSize / parallelDownloads

/-- download.rs line 29: `num_blocks = (object_size + block_size - 1) / block_size`. -/
def numBlocks (objectSize blockSize : Nat) : Nat :=
  (objectSize + blockSize - 1) / blockSize

/-- download.rs lines 33 to 40: for each block index, one task per object
(in listing order) with range `[block_i * block_size, min ((block_i + 1) *
block_size) object_size)`. -/
def blockPlanTasks (objects : List ObjectMeta) (objectSize blockSize : Nat) :
    List FetchTask :=
  (List.range (numBlocks objectSize blockSize)).flatMap fun blockI =>
    objects.map fun meta =>
      { location := meta.location, start := blockI * blockSize,
        stop := min ((blockI + 1) * blockSize) objectSize }

/-- Sequential model of `.buffered(..).try_collect()`: the per-task byte
counts when every range-get succeeds, or the first failure in task order. -/
def tryCollect (fetch : Nat → Nat × Nat → Except Unit Nat) :
    List FetchTask → Except Unit (List Nat)
  | [] => Except.ok []
  | t :: ts =>
    match fetch t.location (t.start, t.stop) with
    | Except.error e => Except.error e
    | Except.ok n =>
      match tryCollect fetch ts with
      | Except.error e => Except.error e
      | Except.ok ns => Except.ok (n :: ns)

/-- Body of `parallel_download_bench` from the block-size computation on
(download.rs lines 29 to 65).  A zero block size makes the `num_blocks`
division panic; otherwise the planned tasks are fetched and, on success, a
record with `total_size = object_size * objects.len()` is printed. -/
def blockRunWithBlockSize (objects : List ObjectMeta) (objectSize blockSize : Nat)
    (fetch : Nat → Nat × Nat → Except Unit Nat) : Except RunError BenchRecord :=
  if blockSize = 0 then Except.error RunError.panickedDivideByZero
  else
    match tryCollect fetch (blockPlanTasks objects objectSize blockSize) with
    | Except.error _ => Except.error RunError.fetchFailure
    | Except.ok _ =>
      Except.ok { numObjects := objects.length,
                  unitCount := numBlocks objectSize blockSize,
                  totalBytes := objectSize * objects.length }

/-- download.rs line 28: `unwrap_or` evaluates its argument eagerly, so
`object_size / parallel_downloads` is computed (and panics when
`parallel_downloads = 0`) even when an explicit block size is given. -/
def blockRunChecked (objects : List ObjectMeta) (objectSize parallelDownloads : Nat)
    (blockSizeArg : Option Nat) (fetch : Nat → Nat × Nat → Except Unit Nat) :
    Except RunError BenchRecord :=
  if parallelDownloads = 0 then Except.error RunError.panickedDivideByZero
  else
    blockRunWithBlockSize objects objectSize
      (blockSizeArg.getD (defaultBlockSize objectSize parallelDownloads)) fetch

/-- `parallel_download_bench` after location resolution (download.rs lines
21 to 65): `objects[0]` panics on an empty listing; the size-uniformity
`assert!` panics on a mismatch; otherwise the checked pipeline runs. -/
def blockRun (objects : List ObjectMeta) (parallelDownloads : Nat)
    (blockSizeArg : Option Nat) (fetch : Nat → Nat × Nat → Except Unit Nat) :
    Except RunError BenchRecord :=
  match objects with
  | [] => Except.error RunError.panickedIndexOutOfBounds
  | o0 :: _ =>
    if objects.all fun o => o.size = o0.size then
      blockRunChecked objects o0.size parallelDownloads blockSizeArg fetch
    else Except.error RunError.panickedSizeMismatch

/-- The whole `download` subcommand: resolution followed by the run. -/
def parallel_download_bench (head : HeadResult) (listing : Except Unit (List ObjectMeta))
    (parallelDownloads : Nat) (blockSizeArg : Option Nat)
    (fetch : Nat → Nat × Nat → Except Unit Nat) : Except RunError BenchRecord :=
  match inspect_location head listing with
  | Except.error e => Except.error e
  | Except.ok objects => blockRun objects parallelDownloads blockSizeArg fetch

/-- columnar.rs line 32: `group_size = page_sizes.iter().sum()`. -/
def groupSize (pageSizes : List Nat) : Nat :=
  pageSizes.sum

/-- columnar.rs line 33: `num_groups = object_size / group_size` (floor). -/
def numGroups (objectSize : Nat) (pageSizes : List Nat) : Nat :=
  objectSize / groupSize pageSizes

/-- Prefix sum of the first `c` page sizes; the byte offset of column `c`
inside one row group. -/
def presum (pageSizes : List Nat) (c : Nat) : Nat :=
  (pageSizes.take c).sum

/-- One iteration of the outer loop of columnar.rs lines 40 to 46: walk the
columns once, appending the running offset to each column's offset list and
advancing the offset by that column's page size.  The table always has one
entry per column; the mismatched case is unreachable in the pipeline. -/
def groupPass : List Nat → Nat → List (List Nat) → Nat × List (List Nat)
  | [], offset, tbl => (offset, tbl)
  | _ :: _, offset, [] => (offset, [])
  | p :: ps, offset, col :: cols =>
    let rest := groupPass ps (offset + p) cols
    (rest.1, (col ++ [offset]) :: rest.2)

/-- The outer loop of columnar.rs lines 40 to 46: one `groupPass` per row
group, threading the running offset. -/
def groupsPass (pageSizes : List Nat) : Nat → Nat → List (List Nat) → Nat × List (List Nat)
  | 0, offset, tbl => (offset, tbl)
  | g + 1, offset, tbl =>
    let st := groupPass pageSizes offset tbl
    groupsPass pageSizes g st.1 st.2

/-- columnar.rs lines 34 and 39 to 46: `page_offsets[column_i]` lists, for
each group in order, the starting offset of that column's page. -/
def pageOffsets (pageSizes : List Nat) (nGroups : Nat) : List (List Nat) :=
  (groupsPass pageSizes nGroups 0 (List.replicate pageSizes.length [])).2

/-- columnar.rs lines 63 to 79: the reads of one row group of one object —
for each column (via `enumerate`), the range
`offset..(offset + page_size)` with `offset = page_offsets[column_i][group_i]`. -/
def columnarUnit (pageSizes : List Nat) (pageOffs : List (List Nat))
    (location groupI : Nat) : List FetchTask :=
  pageOffs.enum.map fun p =>
    let pageSize := pageSizes.getD p.1 0
    let offset := (p.2).getD groupI 0
    { location := location, start := offset, stop := offset + pageSize }

/-- columnar.rs lines 49 to 54 and 59 to 80 flattened: for each group index,
for each object in listing order, that object's row-group reads. -/
def columnarPlanTasks (objects : List ObjectMeta) (pageSizes : List Nat)
    (objectSize : Nat) : List FetchTask :=
  (List.range (numGroups objectSize pageSizes)).flatMap fun groupI =>
    objects.flatMap fun meta =>
      columnarUnit pageSizes (pageOffsets pageSizes (numGroups objectSize pageSizes))
        meta.location groupI

/-- columnar.rs line 99: `total_size = objects.len() * group_size * num_groups`. -/
def columnarTotalSize (objects : List ObjectMeta) (pageSizes : List Nat)
    (objectSize : Nat) : Nat :=
  objects.length * groupSize pageSizes * numGroups objectSize pageSizes

/-- Body of `columnar_read_test` after the size check (columnar.rs lines 31
to 105): an empty or all-zero page-size list makes the `num_groups` division
panic; the sanity `assert!` at line 37 panics when
`group_size * num_groups > object_size`; otherwise the planned tasks are
fetched and, on success, the record is printed. -/
def columnarRunChecked (objects : List ObjectMeta) (objectSize : Nat)
    (pageSizes : List Nat) (fetch : Nat → Nat × Nat → Except Unit Nat) :
    Except RunError BenchRecord :=
  if groupSize pageSizes = 0 then Except.error RunError.panickedDivideByZero
  else if groupSize pageSizes * numGroups objectSize pageSizes ≤ objectSize then
    match tryCollect fetch (columnarPlanTasks objects pageSizes objectSize) with
    | Except.error _ => Except.error RunError.fetchFailure
    | Except.ok _ =>
      Except.ok { numObjects := objects.length,
                  unitCount := numGroups objectSize pageSizes,
                  totalBytes := columnarTotalSize objects pageSizes objectSize }
  else Except.error RunError.panickedObjectTooSmall

/-- `columnar_read_test` after location resolution (columnar.rs lines 22 to
105): `objects[0]` panics on an empty listing; the size-uniformity
`assert!` panics on a mismatch; otherwise the checked pipeline runs. -/
def columnarRun (objects : List ObjectMeta) (_parallelDownloads : Nat)
    (pageSizes : List Nat) (fetch : Nat → Nat × Nat → Except Unit Nat) :
    Except RunError BenchRecord :=
  match objects with
  | [] => Except.error RunError.panickedIndexOutOfBounds
  | o0 :: _ =>
    if objects.all fun o => o.size = o0.size then
      columnarRunChecked objects o0.size pageSizes fetch
    else Except.error RunError.panickedSizeMismatch

/-- The whole `columnar` subcommand: resolution followed by the run. -/
def columnar_read_test (head : HeadResult) (listing : Except Unit (List ObjectMeta))
    (parallelDownloads : Nat) (pageSizes : List Nat)
    (fetch : Nat → Nat × Nat → Except Unit Nat) : Except RunError BenchRecord :=
  match inspect_location head listing with
  | Except.error e => Except.error e
  | Except.ok objects => columnarRun objects parallelDownloads pageSizes fetch

/-! ### List indexing helpers -/

lemma flatMap_const_length {α β : Type} (l : List α) (f : α → List β) (k : Nat)
    (hf : ∀ a ∈ l, (f a).length = k) : (l.flatMap f).length = l.length * k := by
  induction l with
  | nil => simp
  | cons a l ih =>
    have ha := hf a (List.mem_cons_self a l)
    have ih2 := ih fun b hb => hf b (List.mem_cons_of_mem a hb)
    simp only [List.flatMap_cons, List.length_append, ha, ih2, List.length_cons]
    ring

lemma range_flatMap_getElem? {β : Type} (f : Nat → List β) (k : Nat)
    (hk : ∀ a, (f a).length = k) :
    ∀ (n i j : Nat), i < n → j < k →
      ((List.range n).flatMap f)[i * k + j]? = (f i)[j]? := by
  intro n
  induction n with
  | zero => intro i j hi _; exact absurd hi (Nat.not_lt_zero i)
  | succ n ih =>
    intro i j hi hj
    rw [List.range_succ, List.flatMap_append]
    have hlen : ((List.range n).flatMap f).length = n * k := by
      rw [flatMap_const_length _ f k fun a _ => hk a, List.length_range]
    by_cases hin : i < n
    · have hidx : i * k + j < ((List.range n).flatMap f).length := by
        rw [hlen]
        have h1 : (i + 1) * k = i * k + k := Nat.succ_mul i k
        have h2 : (i + 1) * k ≤ n * k := Nat.mul_le_mul_right k hin
        omega
      rw [List.getElem?_append_left hidx, ih i j hin hj]
    · have hieq : i = n := by omega
      subst hieq
      have hge : ((List.range i).flatMap f).length ≤ i * k + j := by omega
      rw [List.getElem?_append_right hge, hlen, List.flatMap_singleton,
        Nat.add_sub_cancel_left]

/-! ### Block-pattern arithmetic (download.rs) -/

lemma mul_le_of_lt_numBlocks {os bs i : Nat} (hbs : 0 < bs) (hi : i < numBlocks os bs) :
    (i + 1) * bs ≤ os + bs - 1 :=
  (Nat.le_div_iff_mul_le hbs).mp hi

lemma start_lt_objectSize {os bs i : Nat} (hbs : 0 < bs) (hi : i < numBlocks os bs) :
    i * bs < os := by
  have h := mul_le_of_lt_numBlocks hbs hi
  have h2 : (i + 1) * bs = i * bs + bs := Nat.succ_mul i bs
  omega

lemma full_block_of_not_last {os bs i : Nat} (hbs : 0 < bs)
    (hi : i + 1 < numBlocks os bs) : (i + 1) * bs ≤ os := by
  have h := mul_le_of_lt_numBlocks hbs hi
  have h2 : (i + 1 + 1) * bs = (i + 1) * bs + bs := Nat.succ_mul (i + 1) bs
  omega

/-- C1: for every object size, positive block size and non-empty object
list, the block plan is the interleaved sequence — task `i * numObjects + j`
reads object `j` over `[i * blockSize, min ((i + 1) * blockSize) objectSize)`
— no range's end exceeds the object size, every block except possibly the
last is full, and the `objectSize = 1000, blockSize = 300` scenario gives
the ranges `[0,300) [300,600) [600,900) [900,1000)`. -/
theorem C1_block_plan (os bs : Nat) (objs : List ObjectMeta)
    (hbs : 0 < bs) (_hne : objs ≠ []) :
    (blockPlanTasks objs os bs).length = numBlocks os bs * objs.length ∧
    (∀ i j, i < numBlocks os bs → j < objs.length →
      (blockPlanTasks objs os bs)[i * objs.length + j]? =
        (objs[j]?).map fun meta =>
          ({ location := meta.location, start := i * bs,
             stop := min ((i + 1) * bs) os } : FetchTask)) ∧
    (∀ t ∈ blockPlanTasks objs os bs, t.stop ≤ os) ∧
    (∀ i, i + 1 < numBlocks os bs → min ((i + 1) * bs) os = (i + 1) * bs) ∧
    blockPlanTasks [⟨7, 1000⟩] 1000 300 =
      [⟨7, 0, 300⟩, ⟨7, 300, 600⟩, ⟨7, 600, 900⟩, ⟨7, 900, 1000⟩] := by
  refine ⟨?_, ?_, ?_, ?_, by decide⟩
  · rw [blockPlanTasks, flatMap_const_length _ _ objs.length fun a _ => by
      simp [List.length_map], List.length_range]
  · intro i j hi hj
    rw [blockPlanTasks,
      range_flatMap_getElem? _ objs.length (fun a => by simp [List.length_map]) _ i j hi hj,
      List.getElem?_map]
  · intro t ht
    rw [blockPlanTasks, List.mem_flatMap] at ht
    obtain ⟨i, _, hmem⟩ := ht
    rw [List.mem_map] at hmem
    obtain ⟨meta, _, rfl⟩ := hmem
    exact min_le_right _ _
  · intro i hi
    exact min_eq_left (full_block_of_not_last hbs hi)

/-- Witness for C1 at the spec's scenario. -/
theorem C1_block_plan_witness :
    (0 : Nat) < 300 ∧ ([⟨7, 1000⟩] : List ObjectMeta) ≠ [] ∧
    blockPlanTasks [⟨7, 1000⟩] 1000 300 =
      [⟨7, 0, 300⟩, ⟨7, 300, 600⟩, ⟨7, 600, 900⟩, ⟨7, 900, 1000⟩] :=
  ⟨by decide, by decide,
    (C1_block_plan 1000 300 [⟨7, 1000⟩] (by decide) (by decide)).2.2.2.2⟩

/-! ### The page-offset table (columnar.rs lines 39 to 46) -/

lemma presum_zero (ps : List Nat) : presum ps 0 = 0 := by
  simp [presum]

lemma presum_cons_succ (p : Nat) (ps : List Nat) (c : Nat) :
    presum (p :: ps) (c + 1) = p + presum ps c := by
  simp [presum]

lemma presum_succ_of_lt (ps : List Nat) (c : Nat) (hc : c < ps.length) :
    presum ps (c + 1) = presum ps c + ps.getD c 0 := by
  induction ps generalizing c with
  | nil => simp at hc
  | cons p ps ih =>
    cases c with
    | zero => simp [presum]
    | succ c =>
      rw [presum_cons_succ, presum_cons_succ, ih c (by simpa using hc)]
      simp [Nat.add_assoc]

lemma presum_le_sum (ps : List Nat) (c : Nat) : presum ps c ≤ ps.sum := by
  conv_rhs => rw [← List.take_append_drop c ps]
  rw [List.sum_append]
  exact Nat.le_add_right _ _

lemma presum_length (ps : List Nat) : presum ps ps.length = ps.sum := by
  simp [presum]

lemma groupPass_snd_length (ps : List Nat) :
    ∀ (off : Nat) (tbl : List (List Nat)),
      ((groupPass ps off tbl).2).length = tbl.length := by
  induction ps with
  | nil => intro off tbl; rfl
  | cons p ps ih =>
    intro off tbl
    cases tbl with
    | nil => rfl
    | cons col cols => simp [groupPass, ih]

lemma groupPass_fst (ps : List Nat) :
    ∀ (off : Nat) (tbl : List (List Nat)), tbl.length = ps.length →
      (groupPass ps off tbl).1 = off + ps.sum := by
  induction ps with
  | nil => intro off tbl _; simp [groupPass]
  | cons p ps ih =>
    intro off tbl hlen
    cases tbl with
    | nil => simp at hlen
    | cons col cols =>
      rw [groupPass]
      rw [ih (off + p) cols (by simpa using hlen)]
      simp [Nat.add_assoc]

lemma groupPass_snd_getElem? (ps : List Nat) :
    ∀ (off : Nat) (tbl : List (List Nat)), tbl.length = ps.length → ∀ c : Nat,
      ((groupPass ps off tbl).2)[c]? =
        (tbl[c]?).map fun col => col ++ [off + presum ps c] := by
  induction ps with
  | nil =>
    intro off tbl hlen c
    have : tbl = [] := List.length_eq_zero.mp hlen
    subst this
    simp [groupPass]
  | cons p ps ih =>
    intro off tbl hlen c
    cases tbl with
    | nil => simp at hlen
    | cons col cols =>
      cases c with
      | zero => simp [groupPass, presum_zero]
      | succ c =>
        rw [groupPass]
        simp only [List.getElem?_cons_succ]
        rw [ih (off + p) cols (by simpa using hlen) c, presum_cons_succ]
        simp [Nat.add_assoc]

lemma groupsPass_snd_length (ps : List Nat) :
    ∀ (g off : Nat) (tbl : List (List Nat)),
      ((groupsPass ps g off tbl).2).length = tbl.length := by
  intro g
  induction g with
  | zero => intro off tbl; rfl
  | succ g ih =>
    intro off tbl
    rw [groupsPass, ih, groupPass_snd_length]

lemma groupsPass_snd_getElem? (ps : List Nat) :
    ∀ (g off : Nat) (tbl : List (List Nat)), tbl.length = ps.length → ∀ c : Nat,
      ((groupsPass ps g off tbl).2)[c]? =
        (tbl[c]?).map fun col =>
          col ++ ((List.range g).map fun gi => off + gi * ps.sum + presum ps c) := by
  intro g
  induction g with
  | zero =>
    intro off tbl _ c
    rw [groupsPass]
    cases htbl : tbl[c]? <;> simp
  | succ g ih =>
    intro off tbl hlen c
    rw [groupsPass]
    rw [ih (groupPass ps off tbl).1 (groupPass ps off tbl).2
      (by rw [groupPass_snd_length]; exact hlen) c]
    rw [groupPass_fst ps off tbl hlen, groupPass_snd_getElem? ps off tbl hlen c,
      Option.map_map]
    cases htbl : tbl[c]? with
    | none => simp
    | some col =>
      simp only [Option.map_some', Function.comp_apply, Option.some.injEq]
      rw [List.append_assoc, List.singleton_append, List.range_succ_eq_map,
        List.map_cons, List.map_map]
      have htail :
          List.map (fun gi => off + ps.sum + gi * ps.sum + presum ps c) (List.range g) =
            List.map ((fun gi => off + gi * ps.sum + presum ps c) ∘ Nat.succ)
              (List.range g) := by
        apply List.map_eq_map_iff.mpr
        intro gi hgi
        have h : (gi + 1) * ps.sum = gi * ps.sum + ps.sum := Nat.succ_mul gi ps.sum
        simp only [Function.comp_apply, Nat.succ_eq_add_one, h]
        omega
      rw [htail]
      simp

lemma pageOffsets_length (ps : List Nat) (g : Nat) :
    (pageOffsets ps g).length = ps.length := by
  rw [pageOffsets, groupsPass_snd_length, List.length_replicate]

lemma pageOffsets_getElem? (ps : List Nat) (g c : Nat) (hc : c < ps.length) :
    (pageOffsets ps g)[c]? =
      some ((List.range g).map fun gi => gi * ps.sum + presum ps c) := by
  rw [pageOffsets,
    groupsPass_snd_getElem? ps g 0 _ (by rw [List.length_replicate]) c,
    List.getElem?_replicate_of_lt hc]
  simp

lemma columnarUnit_eq (ps : List Nat) (G loc gi : Nat) (hgi : gi < G) :
    columnarUnit ps (pageOffsets ps G) loc gi =
      (List.range ps.length).map fun c =>
        ({ location := loc, start := gi * ps.sum + presum ps c,
           stop := gi * ps.sum + presum ps c + ps.getD c 0 } : FetchTask) := by
  apply List.ext_getElem?_iff.mpr
  intro i
  by_cases hi : i < ps.length
  · rw [columnarUnit, List.getElem?_map, List.getElem?_enum,
      pageOffsets_getElem? ps G i hi, List.getElem?_map, List.getElem?_range hi]
    simp only [Option.map_some']
    rw [List.getD_eq_getElem?_getD, List.getElem?_map, List.getElem?_range hgi]
    rfl
  · have h1 : (pageOffsets ps G)[i]? = none := by
      apply List.getElem?_eq_none_iff.mpr
      rw [pageOffsets_length]
      omega
    have h2 : (List.range ps.length)[i]? = (none : Option Nat) := by
      apply List.getElem?_eq_none_iff.mpr
      rw [List.length_range]
      omega
    rw [columnarUnit, List.getElem?_map, List.getElem?_enum, h1, List.getElem?_map, h2]
    rfl

/-! ### Contiguous range chains (for the columnar invariants) -/

/-- The ranges built from consecutive prefix sums of the page sizes,
starting at `base`: exactly one row group's pages laid out back to back. -/
def consecRanges (base : Nat) : List Nat → List (Nat × Nat)
  | [] => []
  | p :: ps => (base, base + p) :: consecRanges (base + p) ps

/-- `ChainedFromTo a b l`: the ranges of `l` are non-empty, contiguous
(each starts where the previous one ends), start at `a` and end at `b`. -/
def ChainedFromTo : Nat → Nat → List (Nat × Nat) → Prop
  | a, b, [] => a = b
  | a, b, r :: rest => a = r.1 ∧ r.1 < r.2 ∧ ChainedFromTo r.2 b rest

lemma chained_le : ∀ (l : List (Nat × Nat)) (a b : Nat), ChainedFromTo a b l → a ≤ b := by
  intro l
  induction l with
  | nil => intro a b h; exact Nat.le_of_eq h
  | cons r rest ih =>
    intro a b h
    obtain ⟨h1, h2, h3⟩ := h
    have h4 := ih r.2 b h3
    omega

lemma chained_mem : ∀ (l : List (Nat × Nat)) (a b : Nat), ChainedFromTo a b l →
    ∀ r ∈ l, a ≤ r.1 ∧ r.1 < r.2 ∧ r.2 ≤ b := by
  intro l
  induction l with
  | nil => intro a b _ r hr; simp at hr
  | cons s rest ih =>
    intro a b h r hr
    obtain ⟨h1, h2, h3⟩ := h
    rcases List.mem_cons.mp hr with hr | hr
    · subst hr
      exact ⟨Nat.le_of_eq h1, h2, chained_le rest r.2 b h3⟩
    · have h4 := ih s.2 b h3 r hr
      omega

lemma chained_pairwise : ∀ (l : List (Nat × Nat)) (a b : Nat), ChainedFromTo a b l →
    List.Pairwise (fun x y => x.1 < y.1 ∧ x.2 ≤ y.1) l := by
  intro l
  induction l with
  | nil => intro a b _; exact List.Pairwise.nil
  | cons s rest ih =>
    intro a b h
    obtain ⟨h1, h2, h3⟩ := h
    refine List.Pairwise.cons ?_ (ih s.2 b h3)
    intro y hy
    have h4 := chained_mem rest s.2 b h3 y hy
    omega

lemma chained_append : ∀ (l1 l2 : List (Nat × Nat)) (a b c : Nat),
    ChainedFromTo a b l1 → ChainedFromTo b c l2 → ChainedFromTo a c (l1 ++ l2) := by
  intro l1
  induction l1 with
  | nil =>
    intro l2 a b c h1 h2
    have : a = b := h1
    subst this
    exact h2
  | cons s rest ih =>
    intro l2 a b c h1 h2
    obtain ⟨ha, hs, hrest⟩ := h1
    exact ⟨ha, hs, ih l2 s.2 b c hrest h2⟩

lemma chained_consecRanges (ps : List Nat) (hpos : ∀ p ∈ ps, 0 < p) :
    ∀ base, ChainedFromTo base (base + ps.sum) (consecRanges base ps) := by
  induction ps with
  | nil => intro base; simp [consecRanges, ChainedFromTo]
  | cons p ps ih =>
    intro base
    have hp : 0 < p := hpos p (List.mem_cons_self p ps)
    have ihp := ih (fun q hq => hpos q (List.mem_cons_of_mem p hq)) (base + p)
    refine ⟨rfl, by omega, ?_⟩
    rw [List.sum_cons, ← Nat.add_assoc]
    exact ihp

lemma consecRanges_eq_map (ps : List Nat) : ∀ base,
    consecRanges base ps = (List.range ps.length).map fun c =>
      (base + presum ps c, base + presum ps (c + 1)) := by
  induction ps with
  | nil => intro base; simp [consecRanges]
  | cons p ps ih =>
    intro base
    rw [consecRanges, List.length_cons, List.range_succ_eq_map, List.map_cons,
      List.map_map, ih (base + p)]
    have hhead : ((base : Nat), base + p) =
        (base + presum (p :: ps) 0, base + presum (p :: ps) 1) := by
      simp [presum]
    rw [hhead]
    have htail : List.map (fun c => (base + p + presum ps c, base + p + presum ps (c + 1)))
        (List.range ps.length) =
        List.map ((fun c => (base + presum (p :: ps) c, base + presum (p :: ps) (c + 1)))
          ∘ Nat.succ) (List.range ps.length) := by
      apply List.map_eq_map_iff.mpr
      intro c _
      simp only [Function.comp_apply, Nat.succ_eq_add_one, presum_cons_succ,
        Prod.mk.injEq]
      omega
    rw [htail]

lemma map_getD_range : ∀ ps : List Nat,
    (List.range ps.length).map (fun c => ps.getD c 0) = ps := by
  intro ps
  induction ps with
  | nil => simp
  | cons p ps ih =>
    rw [List.length_cons, List.range_succ_eq_map, List.map_cons, List.map_map]
    have htail : List.map ((fun c => (p :: ps).getD c 0) ∘ Nat.succ)
        (List.range ps.length) = List.map (fun c => ps.getD c 0) (List.range ps.length) :=
      rfl
    rw [htail, ih]
    rfl

/-- The ranges the plan assigns to a single object, in plan order, are the
contiguous prefix-sum ranges of each full row group in turn. -/
lemma single_plan_map_ranges (ps : List Nat) (os loc : Nat) :
    (columnarPlanTasks [⟨loc, os⟩] ps os).map (fun t => (t.start, t.stop)) =
      (List.range (numGroups os ps)).flatMap fun gi => consecRanges (gi * ps.sum) ps := by
  rw [columnarPlanTasks, List.map_flatMap]
  rw [List.flatMap_def, List.flatMap_def]
  congr 1
  apply List.map_eq_map_iff.mpr
  intro gi hgi
  have hgi2 : gi < numGroups os ps := List.mem_range.mp hgi
  rw [List.flatMap_singleton, columnarUnit_eq ps (numGroups os ps) loc gi hgi2,
    List.map_map, consecRanges_eq_map ps (gi * ps.sum)]
  apply List.map_eq_map_iff.mpr
  intro c hc
  have hc2 : c < ps.length := List.mem_range.mp hc
  simp only [Function.comp_apply, Prod.mk.injEq]
  rw [presum_succ_of_lt ps c hc2]
  exact ⟨trivial, Nat.add_assoc _ _ _⟩

/-- The whole per-object range list is one contiguous chain from byte `0`
to byte `numGroups * groupSize`. -/
lemma chained_plan (ps : List Nat) (hpos : ∀ p ∈ ps, 0 < p) : ∀ G : Nat,
    ChainedFromTo 0 (G * ps.sum)
      ((List.range G).flatMap fun gi => consecRanges (gi * ps.sum) ps) := by
  intro G
  induction G with
  | zero => simp [ChainedFromTo]
  | succ G ih =>
    rw [List.range_succ, List.flatMap_append, List.flatMap_singleton]
    have h2 := chained_consecRanges ps hpos (G * ps.sum)
    have h3 : G * ps.sum + ps.sum = (G + 1) * ps.sum := (Nat.succ_mul G ps.sum).symm
    rw [h3] at h2
    exact chained_append _ _ 0 (G * ps.sum) ((G + 1) * ps.sum) ih h2

lemma columnarUnit_length (ps : List Nat) (G loc gi : Nat) :
    (columnarUnit ps (pageOffsets ps G) loc gi).length = ps.length := by
  rw [columnarUnit, List.length_map, List.enum_length, pageOffsets_length]

/-- C6: with positive page sizes, the ranges planned for one object are
strictly increasing and pairwise non-overlapping, each is non-empty and
ends within the object, and every group's ranges have total length exactly
`groupSize`. -/
theorem C6_columnar_object_ranges (ps : List Nat) (os loc : Nat)
    (hpos : ∀ p ∈ ps, 0 < p) :
    List.Pairwise (fun x y => x.1 < y.1 ∧ x.2 ≤ y.1)
      ((columnarPlanTasks [⟨loc, os⟩] ps os).map fun t => (t.start, t.stop)) ∧
    (∀ t ∈ columnarPlanTasks [⟨loc, os⟩] ps os, t.start < t.stop ∧ t.stop ≤ os) ∧
    (∀ gi, gi < numGroups os ps →
      ((columnarUnit ps (pageOffsets ps (numGroups os ps)) loc gi).map
        fun t => t.stop - t.start).sum = groupSize ps) := by
  have hchain := chained_plan ps hpos (numGroups os ps)
  have hle : numGroups os ps * ps.sum ≤ os := by
    rw [numGroups, groupSize]
    exact Nat.div_mul_le_self os ps.sum
  refine ⟨?_, ?_, ?_⟩
  · rw [single_plan_map_ranges]
    exact chained_pairwise _ 0 (numGroups os ps * ps.sum) hchain
  · intro t ht
    have hmem : (t.start, t.stop) ∈ (columnarPlanTasks [⟨loc, os⟩] ps os).map
        (fun t => (t.start, t.stop)) := List.mem_map_of_mem _ ht
    rw [single_plan_map_ranges] at hmem
    have h := chained_mem _ 0 (numGroups os ps * ps.sum) hchain _ hmem
    obtain ⟨_, h2, h3⟩ := h
    exact ⟨h2, le_trans h3 hle⟩
  · intro gi hgi
    rw [columnarUnit_eq ps (numGroups os ps) loc gi hgi, List.map_map]
    have hfun : ((fun t : FetchTask => t.stop - t.start) ∘ fun c =>
        ({ location := loc, start := gi * ps.sum + presum ps c,
           stop := gi * ps.sum + presum ps c + ps.getD c 0 } : FetchTask)) =
        fun c => ps.getD c 0 := by
      funext c
      simp
    rw [hfun, map_getD_range]
    rfl

/-- Witness for C6 at the spec's `page_sizes = [10, 20, 30]` scenario. -/
theorem C6_columnar_object_ranges_witness :
    (∀ p ∈ ([10, 20, 30] : List Nat), 0 < p) ∧
    ∀ t ∈ columnarPlanTasks [⟨0, 125⟩] [10, 20, 30] 125,
      t.start < t.stop ∧ t.stop ≤ 125 :=
  ⟨by decide, (C6_columnar_object_ranges [10, 20, 30] 125 0 (by decide)).2.1⟩

/-- C2: with positive page sizes and `groupSize ≤ objectSize`, the task of
column `c` of group `g` covers
`[g * groupSize + presum c, g * groupSize + presum c + pageSizes[c])`; in
the `page_sizes = [10, 20, 30], object_size = 125` scenario the planned
ranges are `[0,10) [10,30) [30,60) [60,70) [70,90) [90,120)` and no task
touches bytes `120..125`. -/
theorem C2_columnar_layout (ps : List Nat) (os loc g c : Nat)
    (_hpos : ∀ p ∈ ps, 0 < p) (_hle : groupSize ps ≤ os)
    (hg : g < numGroups os ps) (hc : c < ps.length) :
    (columnarPlanTasks [⟨loc, os⟩] ps os)[g * ps.length + c]? =
      some ({ location := loc, start := g * groupSize ps + presum ps c,
              stop := g * groupSize ps + presum ps c + ps.getD c 0 } : FetchTask) ∧
    columnarPlanTasks [⟨11, 125⟩] [10, 20, 30] 125 =
      [⟨11, 0, 10⟩, ⟨11, 10, 30⟩, ⟨11, 30, 60⟩,
       ⟨11, 60, 70⟩, ⟨11, 70, 90⟩, ⟨11, 90, 120⟩] ∧
    (∀ t ∈ columnarPlanTasks [⟨11, 125⟩] [10, 20, 30] 125, t.stop ≤ 120) := by
  refine ⟨?_, by decide, by decide⟩
  have hunitlen : ∀ gi : Nat,
      (([(⟨loc, os⟩ : ObjectMeta)]).flatMap fun meta =>
        columnarUnit ps (pageOffsets ps (numGroups os ps)) meta.location gi).length =
        ps.length := by
    intro gi
    rw [List.flatMap_singleton, columnarUnit_length]
  rw [columnarPlanTasks,
    range_flatMap_getElem? _ ps.length hunitlen (numGroups os ps) g c hg hc,
    List.flatMap_singleton, columnarUnit_eq ps (numGroups os ps) loc g hg,
    List.getElem?_map, List.getElem?_range hc]
  rfl

/-- Witness for C2 at the spec's scenario: group 1, column 2. -/
theorem C2_columnar_layout_witness :
    groupSize [10, 20, 30] ≤ 125 ∧
    (columnarPlanTasks [⟨11, 125⟩] [10, 20, 30] 125)[1 * 3 + 2]? =
      some ({ location := 11, start := 1 * groupSize [10, 20, 30] + presum [10, 20, 30] 2,
              stop := 1 * groupSize [10, 20, 30] + presum [10, 20, 30] 2 +
                ([10, 20, 30] : List Nat).getD 2 0 } : FetchTask) :=
  ⟨by decide,
    (C2_columnar_layout [10, 20, 30] 125 11 1 2 (by decide) (by decide)
      (by decide) (by decide)).1⟩

/-- C5: the columnar plan has `numObjects * numGroups * numColumns` tasks,
`numGroups` is the floor `objectSize / groupSize`, the reported total byte
count equals `numObjects * numGroups * groupSize`,
`groupSize * numGroups ≤ objectSize` always holds, and the sanity assertion
of columnar.rs line 37 can never fail the run. -/
theorem C5_columnar_totals (objects : List ObjectMeta) (ps : List Nat) (os : Nat)
    (_hne : ps ≠ []) (_hpos : ∀ p ∈ ps, 0 < p) :
    (columnarPlanTasks objects ps os).length =
      objects.length * numGroups os ps * ps.length ∧
    numGroups os ps = os / groupSize ps ∧
    columnarTotalSize objects ps os =
      objects.length * numGroups os ps * groupSize ps ∧
    groupSize ps * numGroups os ps ≤ os ∧
    (∀ fetch, columnarRunChecked objects os ps fetch ≠
      Except.error RunError.panickedObjectTooSmall) := by
  have hle : groupSize ps * numGroups os ps ≤ os := by
    rw [Nat.mul_comm, numGroups]
    exact Nat.div_mul_le_self os (groupSize ps)
  refine ⟨?_, rfl, by rw [columnarTotalSize]; ring, hle, ?_⟩
  · rw [columnarPlanTasks,
      flatMap_const_length _ _ (objects.length * ps.length) fun gi _ =>
        flatMap_const_length _ _ ps.length fun meta _ => columnarUnit_length _ _ _ _,
      List.length_range]
    ring
  · intro fetch
    rw [columnarRunChecked]
    by_cases h0 : groupSize ps = 0
    · rw [if_pos h0]
      simp
    · rw [if_neg h0, if_pos hle]
      cases htc : tryCollect fetch (columnarPlanTasks objects ps os) <;> simp

/-- Witness for C5 at the spec's scenario with two objects. -/
theorem C5_columnar_totals_witness :
    ([10, 20, 30] : List Nat) ≠ [] ∧
    (columnarPlanTasks [⟨0, 125⟩, ⟨1, 125⟩] [10, 20, 30] 125).length =
      ([⟨0, 125⟩, ⟨1, 125⟩] : List ObjectMeta).length *
        numGroups 125 [10, 20, 30] * ([10, 20, 30] : List Nat).length :=
  ⟨by decide,
    (C5_columnar_totals [⟨0, 125⟩, ⟨1, 125⟩] [10, 20, 30] 125
      (by decide) (by decide)).1⟩

/-! ### First-error aggregation and run reduction -/

lemma tryCollect_error_of_mem (fetch : Nat → Nat × Nat → Except Unit Nat) :
    ∀ (ts : List FetchTask) (t : FetchTask), t ∈ ts →
      (∃ e, fetch t.location (t.start, t.stop) = Except.error e) →
      ∃ e2, tryCollect fetch ts = Except.error e2 := by
  intro ts
  induction ts with
  | nil => intro t ht _; simp at ht
  | cons s rest ih =>
    intro t ht he
    obtain ⟨e, he⟩ := he
    cases hs : fetch s.location (s.start, s.stop) with
    | error e2 => exact ⟨e2, by rw [tryCollect, hs]⟩
    | ok n =>
      rcases List.mem_cons.mp ht with rfl | hmem
      · rw [hs] at he
        simp at he
      · obtain ⟨e2, h2⟩ := ih t hmem ⟨e, he⟩
        exact ⟨e2, by rw [tryCollect, hs, h2]⟩

lemma tryCollect_ok_of_all (fetch : Nat → Nat × Nat → Except Unit Nat) :
    ∀ ts : List FetchTask,
      (∀ t ∈ ts, ∃ n, fetch t.location (t.start, t.stop) = Except.ok n) →
      ∃ ns, tryCollect fetch ts = Except.ok ns := by
  intro ts
  induction ts with
  | nil => intro _; exact ⟨[], rfl⟩
  | cons s rest ih =>
    intro h
    obtain ⟨n, hn⟩ := h s (List.mem_cons_self s rest)
    obtain ⟨ns, hns⟩ := ih fun t ht => h t (List.mem_cons_of_mem s ht)
    exact ⟨n :: ns, by rw [tryCollect, hn, hns]⟩

lemma blockRun_cons_eq (o0 : ObjectMeta) (rest : List ObjectMeta) (parallel : Nat)
    (bsArg : Option Nat) (fetch : Nat → Nat × Nat → Except Unit Nat)
    (hall : ((o0 :: rest).all fun o => o.size = o0.size) = true) :
    blockRun (o0 :: rest) parallel bsArg fetch =
      blockRunChecked (o0 :: rest) o0.size parallel bsArg fetch := by
  rw [blockRun, if_pos hall]

lemma blockRun_cons_mismatch (o0 : ObjectMeta) (rest : List ObjectMeta) (parallel : Nat)
    (bsArg : Option Nat) (fetch : Nat → Nat × Nat → Except Unit Nat)
    (hall : ((o0 :: rest).all fun o => o.size = o0.size) = false) :
    blockRun (o0 :: rest) parallel bsArg fetch =
      Except.error RunError.panickedSizeMismatch := by
  rw [blockRun, if_neg (by rw [hall]; exact Bool.false_ne_true)]

lemma columnarRun_cons_eq (o0 : ObjectMeta) (rest : List ObjectMeta) (parallel : Nat)
    (ps : List Nat) (fetch : Nat → Nat × Nat → Except Unit Nat)
    (hall : ((o0 :: rest).all fun o => o.size = o0.size) = true) :
    columnarRun (o0 :: rest) parallel ps fetch =
      columnarRunChecked (o0 :: rest) o0.size ps fetch := by
  rw [columnarRun, if_pos hall]

lemma columnarRun_cons_mismatch (o0 : ObjectMeta) (rest : List ObjectMeta)
    (parallel : Nat) (ps : List Nat) (fetch : Nat → Nat × Nat → Except Unit Nat)
    (hall : ((o0 :: rest).all fun o => o.size = o0.size) = false) :
    columnarRun (o0 :: rest) parallel ps fetch =
      Except.error RunError.panickedSizeMismatch := by
  rw [columnarRun, if_neg (by rw [hall]; exact Bool.false_ne_true)]

lemma blockRunChecked_some (objects : List ObjectMeta) (objectSize parallel bs : Nat)
    (fetch : Nat → Nat × Nat → Except Unit Nat) (hp : parallel ≠ 0) :
    blockRunChecked objects objectSize parallel (some bs) fetch =
      blockRunWithBlockSize objects objectSize bs fetch := by
  rw [blockRunChecked, if_neg hp]
  rfl

lemma blockRunChecked_none (objects : List ObjectMeta) (objectSize parallel : Nat)
    (fetch : Nat → Nat × Nat → Except Unit Nat) (hp : parallel ≠ 0) :
    blockRunChecked objects objectSize parallel none fetch =
      blockRunWithBlockSize objects objectSize (objectSize / parallel) fetch := by
  rw [blockRunChecked, if_neg hp]
  rfl

lemma blockRunWithBlockSize_error (objects : List ObjectMeta) (objectSize bs : Nat)
    (fetch : Nat → Nat × Nat → Except Unit Nat) (e : Unit) (hbs : bs ≠ 0)
    (htc : tryCollect fetch (blockPlanTasks objects objectSize bs) = Except.error e) :
    blockRunWithBlockSize objects objectSize bs fetch =
      Except.error RunError.fetchFailure := by
  rw [blockRunWithBlockSize, if_neg hbs, htc]

lemma blockRunWithBlockSize_ok (objects : List ObjectMeta) (objectSize bs : Nat)
    (fetch : Nat → Nat × Nat → Except Unit Nat) (ns : List Nat) (hbs : bs ≠ 0)
    (htc : tryCollect fetch (blockPlanTasks objects objectSize bs) = Except.ok ns) :
    blockRunWithBlockSize objects objectSize bs fetch =
      Except.ok { numObjects := objects.length, unitCount := numBlocks objectSize bs,
                  totalBytes := objectSize * objects.length } := by
  rw [blockRunWithBlockSize, if_neg hbs, htc]

lemma columnar_assert_holds (os : Nat) (ps : List Nat) :
    groupSize ps * numGroups os ps ≤ os := by
  rw [Nat.mul_comm, numGroups]
  exact Nat.div_mul_le_self os (groupSize ps)

lemma columnarRunChecked_error (objects : List ObjectMeta) (os : Nat) (ps : List Nat)
    (fetch : Nat → Nat × Nat → Except Unit Nat) (e : Unit) (h0 : groupSize ps ≠ 0)
    (htc : tryCollect fetch (columnarPlanTasks objects ps os) = Except.error e) :
    columnarRunChecked objects os ps fetch = Except.error RunError.fetchFailure := by
  rw [columnarRunChecked, if_neg h0, if_pos (columnar_assert_holds os ps), htc]

lemma columnarRunChecked_ok (objects : List ObjectMeta) (os : Nat) (ps : List Nat)
    (fetch : Nat → Nat × Nat → Except Unit Nat) (ns : List Nat) (h0 : groupSize ps ≠ 0)
    (htc : tryCollect fetch (columnarPlanTasks objects ps os) = Except.ok ns) :
    columnarRunChecked objects os ps fetch =
      Except.ok { numObjects := objects.length, unitCount := numGroups os ps,
                  totalBytes := columnarTotalSize objects ps os } := by
  rw [columnarRunChecked, if_neg h0, if_pos (columnar_assert_holds os ps), htc]

/-- C7: in both benchmarks, if some planned range-get fails the run's
result is the propagated fetch failure and no success record is produced;
if every range-get succeeds, exactly the success record with the byte
totals is produced. -/
theorem C7_failure_propagation (objects : List ObjectMeta) (o0 : ObjectMeta)
    (rest : List ObjectMeta) (parallel bs : Nat) (ps : List Nat)
    (fetch : Nat → Nat × Nat → Except Unit Nat)
    (hobj : objects = o0 :: rest)
    (hall : (objects.all fun o => o.size = o0.size) = true)
    (hp : 0 < parallel) (hbs : 0 < bs) (hps : 0 < groupSize ps) :
    ((∃ t ∈ blockPlanTasks objects o0.size bs,
        ∃ e, fetch t.location (t.start, t.stop) = Except.error e) →
      blockRun objects parallel (some bs) fetch =
        Except.error RunError.fetchFailure) ∧
    ((∀ t ∈ blockPlanTasks objects o0.size bs,
        ∃ n, fetch t.location (t.start, t.stop) = Except.ok n) →
      blockRun objects parallel (some bs) fetch =
        Except.ok { numObjects := objects.length, unitCount := numBlocks o0.size bs,
                    totalBytes := o0.size * objects.length }) ∧
    ((∃ t ∈ columnarPlanTasks objects ps o0.size,
        ∃ e, fetch t.location (t.start, t.stop) = Except.error e) →
      columnarRun objects parallel ps fetch =
        Except.error RunError.fetchFailure) ∧
    ((∀ t ∈ columnarPlanTasks objects ps o0.size,
        ∃ n, fetch t.location (t.start, t.stop) = Except.ok n) →
      columnarRun objects parallel ps fetch =
        Except.ok { numObjects := objects.length, unitCount := numGroups o0.size ps,
                    totalBytes := columnarTotalSize objects ps o0.size }) := by
  subst hobj
  have hp2 : parallel ≠ 0 := by omega
  have hbs2 : bs ≠ 0 := by omega
  have hps2 : groupSize ps ≠ 0 := by omega
  refine ⟨?_, ?_, ?_, ?_⟩
  · intro hfail
    obtain ⟨t, ht, he⟩ := hfail
    obtain ⟨e2, h2⟩ := tryCollect_error_of_mem fetch _ t ht he
    rw [blockRun_cons_eq o0 rest parallel (some bs) fetch hall,
      blockRunChecked_some _ _ _ _ _ hp2,
      blockRunWithBlockSize_error _ _ _ _ e2 hbs2 h2]
  · intro hok
    obtain ⟨ns, hns⟩ := tryCollect_ok_of_all fetch _ hok
    rw [blockRun_cons_eq o0 rest parallel (some bs) fetch hall,
      blockRunChecked_some _ _ _ _ _ hp2,
      blockRunWithBlockSize_ok _ _ _ _ ns hbs2 hns]
  · intro hfail
    obtain ⟨t, ht, he⟩ := hfail
    obtain ⟨e2, h2⟩ := tryCollect_error_of_mem fetch _ t ht he
    rw [columnarRun_cons_eq o0 rest parallel ps fetch hall,
      columnarRunChecked_error _ _ _ _ e2 hps2 h2]
  · intro hok
    obtain ⟨ns, hns⟩ := tryCollect_ok_of_all fetch _ hok
    rw [columnarRun_cons_eq o0 rest parallel ps fetch hall,
      columnarRunChecked_ok _ _ _ _ ns hps2 hns]

/-- Witness for C7: a failing range-get on the block pattern propagates. -/
theorem C7_failure_propagation_witness :
    (0 : Nat) < 3 ∧
    blockRun [⟨5, 8⟩] 2 (some 3)
        (fun _ r => if r.1 = 0 then Except.error () else Except.ok 1) =
      Except.error RunError.fetchFailure :=
  ⟨by decide,
    (C7_failure_propagation [⟨5, 8⟩] ⟨5, 8⟩ [] 2 3 [2]
        (fun _ r => if r.1 = 0 then Except.error () else Except.ok 1)
        rfl (by decide) (by decide) (by decide) (by decide)).1
      ⟨⟨5, 0, 3⟩, by decide, (), rfl⟩⟩

/-- C8: with at least one resolved object, a size mismatch makes both runs
fail with the assertion panic — for every fetch behaviour, so before any
planning or fetching can matter — while uniform sizes make the check a
no-op: the run equals the checked pipeline. -/
theorem C8_size_uniformity (objects : List ObjectMeta) (o0 : ObjectMeta)
    (rest : List ObjectMeta) (hobj : objects = o0 :: rest) (parallel : Nat)
    (bsArg : Option Nat) (ps : List Nat)
    (fetch : Nat → Nat × Nat → Except Unit Nat) :
    ((objects.all fun o => o.size = o0.size) = false →
      blockRun objects parallel bsArg fetch =
        Except.error RunError.panickedSizeMismatch ∧
      columnarRun objects parallel ps fetch =
        Except.error RunError.panickedSizeMismatch) ∧
    ((objects.all fun o => o.size = o0.size) = true →
      blockRun objects parallel bsArg fetch =
        blockRunChecked objects o0.size parallel bsArg fetch ∧
      columnarRun objects parallel ps fetch =
        columnarRunChecked objects o0.size ps fetch) := by
  subst hobj
  constructor
  · intro hall
    exact ⟨blockRun_cons_mismatch o0 rest parallel bsArg fetch hall,
      columnarRun_cons_mismatch o0 rest parallel ps fetch hall⟩
  · intro hall
    exact ⟨blockRun_cons_eq o0 rest parallel bsArg fetch hall,
      columnarRun_cons_eq o0 rest parallel ps fetch hall⟩

/-- Witness for C8: two objects of sizes 1 and 2 abort both runs. -/
theorem C8_size_uniformity_witness :
    (([⟨0, 1⟩, ⟨1, 2⟩] : List ObjectMeta).all fun o =>
      o.size = (⟨0, 1⟩ : ObjectMeta).size) = false ∧
    blockRun [⟨0, 1⟩, ⟨1, 2⟩] 10 none (fun _ _ => Except.ok 0) =
      Except.error RunError.panickedSizeMismatch :=
  ⟨by decide,
    ((C8_size_uniformity [⟨0, 1⟩, ⟨1, 2⟩] ⟨0, 1⟩ [⟨1, 2⟩] rfl 10 none []
        (fun _ _ => Except.ok 0)).1 (by decide)).1⟩

/-- C10: when the location is not an object and listing the prefix returns
nothing, both benchmarks panic on `objects[0]` instead of returning a
structured resolution error. -/
theorem C10_empty_resolution_panics (parallel : Nat) (bsArg : Option Nat)
    (ps : List Nat) (fetch : Nat → Nat × Nat → Except Unit Nat) :
    parallel_download_bench HeadResult.notFound (Except.ok []) parallel bsArg fetch =
      Except.error RunError.panickedIndexOutOfBounds ∧
    columnar_read_test HeadResult.notFound (Except.ok []) parallel ps fetch =
      Except.error RunError.panickedIndexOutOfBounds ∧
    RunError.panickedIndexOutOfBounds ≠ RunError.resolutionError :=
  ⟨rfl, rfl, by decide⟩

/-- C3 counterexample: with `object_size = 10` and `parallel_downloads = 3`
the default block size actually used is the floor `10 / 3 = 3` — the run's
own record shows 4 blocks — not the ceiling `⌈10 / 3⌉ = 4` the claim
states (which would give 3 blocks). -/
theorem C3_default_floor_counterexample :
    defaultBlockSize 10 3 ≠ (10 + 3 - 1) / 3 ∧
    blockRun [⟨0, 10⟩] 3 none (fun _ _ => Except.ok 0) =
      Except.ok { numObjects := 1, unitCount := 4, totalBytes := 10 } ∧
    numBlocks 10 ((10 + 3 - 1) / 3) = 3 :=
  ⟨by decide, rfl, by decide⟩

/-- C3 amended: when the optional block size is absent (and the requested
concurrency is positive), the block size used is the floor
`object_size / parallel_downloads`. -/
theorem C3_default_floor_amended (objects : List ObjectMeta)
    (objectSize parallel : Nat) (hp : 0 < parallel)
    (fetch : Nat → Nat × Nat → Except Unit Nat) :
    defaultBlockSize objectSize parallel = objectSize / parallel ∧
    blockRunChecked objects objectSize parallel none fetch =
      blockRunWithBlockSize objects objectSize (objectSize / parallel) fetch :=
  ⟨rfl, blockRunChecked_none objects objectSize parallel fetch (by omega)⟩

/-- Witness for the amended C3. -/
theorem C3_default_floor_amended_witness :
    (0 : Nat) < 3 ∧
    blockRunChecked [⟨0, 10⟩] 10 3 none (fun _ _ => Except.ok 0) =
      blockRunWithBlockSize [⟨0, 10⟩] 10 (10 / 3) (fun _ _ => Except.ok 0) :=
  ⟨by decide,
    (C3_default_floor_amended [⟨0, 10⟩] 10 3 (by decide)
      (fun _ _ => Except.ok 0)).2⟩

/-- C4 counterexample: an object of size 50 with `page_sizes = [60]` gives
zero groups, yet the run does not fail — it performs no fetch and emits a
success record with zero bytes. -/
theorem C4_zero_units_counterexample :
    columnarRun [⟨0, 50⟩] 10 [60] (fun _ _ => Except.ok 0) =
      Except.ok { numObjects := 1, unitCount := 0, totalBytes := 0 } ∧
    columnarPlanTasks [⟨0, 50⟩] [60] 50 = [] :=
  ⟨rfl, rfl⟩

/-- C4 amended: a layout with zero units is not an error.  When the object
is smaller than the group size the columnar run plans no task and succeeds
with a zero-byte record (the `object is too small` assertion can never
fire, for any size at all); a zero-block layout (an empty object with an
explicit block size) likewise succeeds with a zero-byte record.  The code
has no `InvalidLayoutError`; the only layout-induced failure is a
division-by-zero panic when the defaulted block size is zero because
`object_size < parallel_downloads`. -/
theorem C4_zero_units_amended (objects : List ObjectMeta) (o0 : ObjectMeta)
    (rest : List ObjectMeta) (ps : List Nat) (parallel loc bs osmall : Nat)
    (fetch : Nat → Nat × Nat → Except Unit Nat)
    (hobj : objects = o0 :: rest)
    (hall : (objects.all fun o => o.size = o0.size) = true)
    (hps : 0 < groupSize ps) (hsmall : o0.size < groupSize ps)
    (hp : 0 < parallel) (hbs : 0 < bs) (hos : osmall < parallel) :
    columnarRun objects parallel ps fetch =
      Except.ok { numObjects := objects.length, unitCount := 0, totalBytes := 0 } ∧
    columnarPlanTasks objects ps o0.size = [] ∧
    (∀ (os2 : Nat) (ps2 : List Nat), groupSize ps2 * numGroups os2 ps2 ≤ os2) ∧
    blockRun [⟨loc, 0⟩] parallel (some bs) fetch =
      Except.ok { numObjects := 1, unitCount := 0, totalBytes := 0 } ∧
    blockRun [⟨loc, osmall⟩] parallel none fetch =
      Except.error RunError.panickedDivideByZero := by
  subst hobj
  have hG : numGroups o0.size ps = 0 := by
    rw [numGroups]
    exact Nat.div_eq_of_lt hsmall
  have hplan : columnarPlanTasks (o0 :: rest) ps o0.size = [] := by
    rw [columnarPlanTasks, hG]
    rfl
  refine ⟨?_, hplan, ?_, ?_, ?_⟩
  · rw [columnarRun_cons_eq o0 rest parallel ps fetch hall,
      columnarRunChecked_ok (o0 :: rest) o0.size ps fetch [] (by omega)
        (by rw [hplan]; rfl)]
    rw [hG, columnarTotalSize, hG, Nat.mul_zero]
  · intro os2 ps2
    exact columnar_assert_holds os2 ps2
  · have hnb : numBlocks 0 bs = 0 := by
      rw [numBlocks]
      exact Nat.div_eq_of_lt (by omega)
    have hplanb : blockPlanTasks [⟨loc, 0⟩] 0 bs = [] := by
      rw [blockPlanTasks, hnb]
      rfl
    rw [blockRun_cons_eq ⟨loc, 0⟩ [] parallel (some bs) fetch (by simp),
      blockRunChecked_some _ _ _ _ _ (by omega),
      blockRunWithBlockSize_ok _ _ _ _ [] (by omega) (by rw [hplanb]; rfl)]
    rw [hnb]
    rfl
  · have hzero : osmall / parallel = 0 := Nat.div_eq_of_lt hos
    rw [blockRun_cons_eq ⟨loc, osmall⟩ [] parallel none fetch (by simp),
      blockRunChecked_none _ _ _ _ (by omega), hzero, blockRunWithBlockSize,
      if_pos rfl]

/-- Witness for the amended C4. -/
theorem C4_zero_units_amended_witness :
    (0 : Nat) < groupSize [60] ∧
    columnarRun [⟨0, 50⟩] 10 [60] (fun _ _ => Except.ok 5) =
      Except.ok { numObjects := 1, unitCount := 0, totalBytes := 0 } :=
  ⟨by decide,
    (C4_zero_units_amended [⟨0, 50⟩] ⟨0, 50⟩ [] [60] 10 3 7 4
        (fun _ _ => Except.ok 5) rfl (by decide) (by decide) (by decide)
        (by decide) (by decide) (by decide)).1⟩

end OSBench
